import Mathlib

/-!
# Verification of the DmpBbo optimization-loop core

Shallow embedding of `src/bbo/runOptimization.cpp` (the functions
`saveToDirectory` and `runOptimization`) and of
`src/dmp_bbo/TaskSolverDmp.cpp` (`TaskSolverDmp::performRollouts`),
with theorems settling the specification claims about them.

Scalars are embedded as `ℚ` (the code uses `double`; no claim under
scrutiny depends on floating-point rounding, only on which values flow
where).  Eigen vectors are `List ℚ`, Eigen matrices are `List (List ℚ)`
(rows).  External collaborators (cost function, updater, the random
sampler inside `DistributionGaussian`, the eigenvalue routine, `sqrt`,
the `Dmp` trajectory generator, and the filesystem) are parameters of
the embedding: the claims are about how the embedded code composes
them, never about their internals.
-/

/-- An Eigen `MatrixXd`, as a list of rows. -/
abbrev Mat : Type := List (List ℚ)

/-- Eigen `MatrixXd::size()`: the total number of coefficients (rows times
columns; for possibly ragged lists, the sum of the row lengths). -/
def matSize (m : Mat) : ℕ :=
  (List.map List.length m).sum

/-- A `DistributionGaussian`, reduced to the data the embedded code
reads from it: its mean vector and covariance matrix.  (Sampling and
`maxEigenValue` are external to `src/` and are abstracted as parameters
where used.) -/
structure DistributionGaussian where
  mean : List ℚ
  covar : Mat
deriving DecidableEq, Inhabited

/-- A vector written to disk: Eigen vectors are column vectors, one
coefficient per output line. -/
def colOf (v : List ℚ) : Mat :=
  List.map (fun x => [x]) v

/-- Stream formatting `setw(w)` with fill character zero applied to a
nonnegative integer `n`: the decimal digits of `n`, left-padded with
zeros to width `w` (never truncated). -/
def zeroPad (w n : ℕ) : String :=
  String.mk (List.replicate (w - (Nat.toDigits 10 n).length) '0' ++ Nat.toDigits 10 n)

/-- The filesystem, abstracted: which paths exist before the call,
which directory creations succeed, and which physical writes succeed. -/
structure FS where
  existsPath : String → Bool
  createOk : String → Bool
  writeOk : String → Bool

/-- A filesystem on which nothing exists yet and every operation
succeeds. -/
def allOkFS : FS :=
  ⟨fun _ => false, fun _ => true, fun _ => true⟩

/-- Modelled from the spec: `saveMatrix` of `EigenFileIO` is not under
`src/`.  Per the spec (CheckpointWriter contract), writing to `dir/file`
must fail when the file exists and `overwrite == false` (not silently
skip); otherwise the write succeeds exactly when the filesystem allows
it. -/
def saveMatrix (fs : FS) (dir file : String) (ow : Bool) : Bool :=
  if fs.existsPath (dir ++ "/" ++ file) && !ow then false
  else fs.writeOk (dir ++ "/" ++ file)

/-- The distribution files written first (`runOptimization.cpp` lines
90-109): with exactly one distribution `distribution_mean.txt` and
`distribution_covar.txt`; otherwise `n_parallel.txt` holding the count,
then per-distribution files with a zero-padded 3-digit index (the
source builds these names with a leading slash). -/
def headWrites (dists : List DistributionGaussian) : List (String × Mat) :=
  if dists.length = 1 then
    [("distribution_mean.txt", colOf (dists.getD 0 default).mean),
     ("distribution_covar.txt", (dists.getD 0 default).covar)]
  else
    ("n_parallel.txt", [[(dists.length : ℚ)]]) ::
      (List.range dists.length).flatMap (fun dd =>
        [("/distribution_" ++ zeroPad 3 dd ++ "_mean.txt",
            colOf ((dists.getD dd default).mean)),
         ("/distribution_" ++ zeroPad 3 dd ++ "_covar.txt",
            (dists.getD dd default).covar)])

/-- The optional files (`runOptimization.cpp` lines 111-122):
`cost_eval.txt` only when the probe-cost pointer is non-NULL, and
`samples.txt` / `costs.txt` / `weights.txt` only when the matrix or
vector has nonzero size. -/
def optionalWrites (cost_eval : Option ℚ) (samples : Mat)
    (costs weights : List ℚ) : List (String × Mat) :=
  (match cost_eval with
   | some c => [("cost_eval.txt", [[c]])]
   | none => []) ++
  (if matSize samples > 0 then [("samples.txt", samples)] else []) ++
  (if costs.length > 0 then [("costs.txt", colOf costs)] else []) ++
  (if weights.length > 0 then [("weights.txt", colOf weights)] else [])

/-- The post-update distribution files (`runOptimization.cpp` lines
123-140); as in the source, the multi-distribution loop bound is the
length of `dists` (asserted equal to that of `dists_new`). -/
def tailWrites (dists dists_new : List DistributionGaussian) : List (String × Mat) :=
  if dists.length = 1 then
    [("distribution_new_mean.txt", colOf (dists_new.getD 0 default).mean),
     ("distribution_new_covar.txt", (dists_new.getD 0 default).covar)]
  else
    (List.range dists.length).flatMap (fun dd =>
      [("/distribution_new_" ++ zeroPad 3 dd ++ "_mean.txt",
          colOf ((dists_new.getD dd default).mean)),
       ("/distribution_new_" ++ zeroPad 3 dd ++ "_covar.txt",
          (dists_new.getD dd default).covar)])

/-- The full sequence of `saveMatrix` calls `saveToDirectory` makes,
in source order. -/
def plannedWrites (dists : List DistributionGaussian) (cost_eval : Option ℚ)
    (samples : Mat) (costs weights : List ℚ)
    (dists_new : List DistributionGaussian) : List (String × Mat) :=
  headWrites dists ++ optionalWrites cost_eval samples costs weights
    ++ tailWrites dists dists_new

/-- Run a sequence of writes in order with the early-exit shape of the
source (`if (!saveMatrix(...)) return false;`): returns whether all
succeeded, together with the writes actually attempted.  The first
failing write is the last one attempted. -/
def writeAll (fs : FS) (dir : String) (ow : Bool) :
    List (String × Mat) → Bool × List (String × Mat)
  | [] => (true, [])
  | w :: rest =>
    if saveMatrix fs dir w.1 ow then
      let r := writeAll fs dir ow rest
      (r.1, w :: r.2)
    else (false, [w])

/-- The observable outcome of one `saveToDirectory` call: the returned
boolean, the update subdirectory name, the `saveMatrix` calls attempted
(file name relative to that subdirectory, with content), and the error
messages printed to stderr (directory-creation failures). -/
structure SaveResult where
  ok : Bool
  dirUpdate : String
  attempts : List (String × Mat)
  errors : List String
deriving DecidableEq

/-- Function `saveToDirectory` (`runOptimization.cpp` lines 56-142): ensure the
root directory and the zero-padded `update%05d` subdirectory exist,
then perform the planned writes in order, returning `false` at the
first failure. -/
def saveToDirectory (fs : FS) (directory : String) (i_update : ℕ)
    (dists : List DistributionGaussian) (cost_eval : Option ℚ)
    (samples : Mat) (costs weights : List ℚ)
    (dists_new : List DistributionGaussian) (ow : Bool) : SaveResult :=
  if !fs.existsPath directory && !fs.createOk directory then
    ⟨false, "", [], ["Could not make directory file " ++ directory]⟩
  else
    let dir_update := directory ++ "/update" ++ zeroPad 5 i_update
    if !fs.existsPath dir_update && !fs.createOk dir_update then
      ⟨false, dir_update, [], ["Could not make directory file " ++ dir_update]⟩
    else
      let planned := plannedWrites dists cost_eval samples costs weights dists_new
      let r := writeAll fs dir_update ow planned
      ⟨r.1, dir_update, r.2, []⟩

/-- The single-distribution overload (`runOptimization.cpp` lines
45-54): wrap the two distributions in singleton vectors and delegate. -/
def saveToDirectory1 (fs : FS) (directory : String) (i_update : ℕ)
    (distribution : DistributionGaussian) (cost_eval : Option ℚ)
    (samples : Mat) (costs weights : List ℚ)
    (distribution_new : DistributionGaussian) (ow : Bool) : SaveResult :=
  saveToDirectory fs directory i_update [distribution] cost_eval samples
    costs weights [distribution_new] ow

/-- One loop-level observable action of an iteration of
`runOptimization`, in source statement order: the probe evaluation at
the mean, the sample draw, the per-sample cost evaluations, the
updater call, the console progress print (empty `save_directory`
only), and the checkpoint call with its returned boolean. -/
inductive Event where
  | evalMean (c : ℚ)
  | drawSamples
  | evalSample (c : ℚ)
  | updateDist
  | printProgress (c : ℚ) (d : DistributionGaussian)
  | saveCall (ok : Bool)
deriving DecidableEq

/-- Is this event the probe evaluation at the distribution mean? -/
def Event.isEvalMean : Event → Bool
  | .evalMean _ => true
  | _ => false

/-- Is this event the per-iteration checkpoint call? -/
def Event.isSaveCall : Event → Bool
  | .saveCall _ => true
  | _ => false

/-- Everything one iteration of the optimization loop does, recorded:
its index, the distribution it started from, the probe cost, the
samples drawn, their costs, the weights and new distribution the
updater returned, the checkpoint result (when attempted), the
learning-curve row written (when a save directory is given), and the
ordered action trace. -/
structure IterationRecord where
  idx : ℕ
  dist : DistributionGaussian
  cost_eval : ℚ
  samples : Mat
  costs : List ℚ
  weights : List ℚ
  dist_new : DistributionGaussian
  save_result : Option Bool
  lc_row : Option (List ℚ)
  events : List Event
deriving DecidableEq, Inhabited

/-- The collaborators and configuration `runOptimization` is run with.
`cf` is `CostFunction::evaluate`; `updater` is
`Updater::updateDistribution` (returning the weights and the new
distribution it writes to its output arguments); `gen` abstracts
`DistributionGaussian::generateSamples` (the per-distribution random
stream, deterministically indexed by the iteration); `maxEig`
abstracts `DistributionGaussian::maxEigenValue` as a function of the
covariance, and `sqrtQ` abstracts `sqrt`; `fs` is the filesystem the
checkpoint writer sees. -/
structure OptParams where
  cf : List ℚ → ℚ
  updater : DistributionGaussian → Mat → List ℚ → List ℚ × DistributionGaussian
  gen : ℕ → DistributionGaussian → Mat
  maxEig : Mat → ℚ
  sqrtQ : ℚ → ℚ
  n_samples_per_update : ℕ
  save_directory : String
  overwrite : Bool
  only_learning_curve : Bool
  fs : FS

/-- Parameters `p` with the filesystem replaced. -/
def OptParams.withFS (p : OptParams) (fs : FS) : OptParams :=
  { p with fs := fs }

/-- One iteration of the optimization loop (`runOptimization.cpp`
lines 173-211), started at the current distribution `d`: evaluate the
cost at the mean, draw samples, evaluate each sample, call the
updater, then either print progress (empty `save_directory`) or
record the learning-curve row and, unless `only_learning_curve`, call
`saveToDirectory` — whose returned boolean the loop discards.  The
call site passes no `overwrite` argument; the declaration default
(header not under `src/`) is modelled as `false`. -/
def runStep (p : OptParams) (i : ℕ) (d : DistributionGaussian) : IterationRecord :=
  let cost_eval := p.cf d.mean
  let samples := p.gen i d
  let costs := (List.range p.n_samples_per_update).map
    (fun k => p.cf (samples.getD k []))
  let uw := p.updater d samples costs
  let save_result :=
    if p.save_directory = "" then none
    else if p.only_learning_curve then none
    else some (saveToDirectory1 p.fs p.save_directory i d (some cost_eval)
        samples costs uw.1 uw.2 false).ok
  let lc_row :=
    if p.save_directory = "" then none
    else some [((i * p.n_samples_per_update : ℕ) : ℚ), cost_eval,
               p.sqrtQ (p.maxEig d.covar)]
  let events :=
    Event.evalMean cost_eval :: Event.drawSamples ::
      (costs.map Event.evalSample ++ [Event.updateDist] ++
        (if p.save_directory = "" then [Event.printProgress cost_eval d] else []) ++
        (match save_result with
         | some b => [Event.saveCall b]
         | none => []))
  ⟨i, d, cost_eval, samples, costs, uw.1, uw.2, save_result, lc_row, events⟩

/-- Run `m` iterations of the loop starting at iteration index `i`
with current distribution `d`; returns the distribution after the last
iteration and the per-iteration records in order.  The recursion makes
line 209 of the source explicit: the next iteration starts from the
`distribution_new` produced by the updater, unconditionally. -/
def runFrom (p : OptParams) (d : DistributionGaussian) (i : ℕ) :
    ℕ → DistributionGaussian × List IterationRecord
  | 0 => (d, [])
  | Nat.succ m =>
    let r := runStep p i d
    let rest := runFrom p r.dist_new (i + 1) m
    (rest.1, r :: rest.2)

/-- The observable outcome of one `runOptimization` call: the initial
console print (empty `save_directory` only), the per-iteration
records, the distribution held in `distribution` after the loop, the
learning-curve rows written, and the result of the final
`learning_curve.txt` save (non-empty `save_directory` only; this is
the one write that receives the `overwrite` flag of the caller). -/
structure RunResult where
  init_print : Option DistributionGaussian
  records : List IterationRecord
  final_dist : DistributionGaussian
  learning_curve : List (List ℚ)
  lc_save : Option Bool
deriving DecidableEq

/-- Function `runOptimization` (`runOptimization.cpp` lines 145-217).  The
source performs no validation of `n_updates` or
`n_samples_per_update`; the loop simply runs `n_updates` times (zero
times when `n_updates = 0`). -/
def runOptimization (p : OptParams) (initial_distribution : DistributionGaussian)
    (n_updates : ℕ) : RunResult :=
  let ip := if p.save_directory = "" then some initial_distribution else none
  let fr := runFrom p initial_distribution 0 n_updates
  let lc := fr.2.filterMap IterationRecord.lc_row
  let ls :=
    if p.save_directory = "" then none
    else some (saveMatrix p.fs p.save_directory "learning_curve.txt" p.overwrite)
  ⟨ip, fr.2, fr.1, lc, ls⟩

/-- What `runOptimization` returns to its caller: the C++ function is
declared `void`, so the caller receives no value at all. -/
def runOptimizationReturnValue (p : OptParams)
    (initial_distribution : DistributionGaussian) (n_updates : ℕ) : Unit :=
  let _ := runOptimization p initial_distribution n_updates
  ()

/-- The trajectories `TaskSolverDmp::performRollouts` obtains from the
`Dmp` collaborator for one sample: `statesAsTrajectory` yields the
positions, velocities and accelerations, `analyticalSolution` also
yields the forcing terms.  Each is a matrix with one row per time
step. -/
structure DmpRollout where
  ys : Mat
  yds : Mat
  ydds : Mat
  forcing : Mat

/-- One Eigen block assignment `cost_vars.block(k, off, 1, w) = vals`:
the start column, the block width, and the assigned row. -/
structure BlockWrite where
  off : ℕ
  width : ℕ
  vals : List ℚ
deriving DecidableEq, Inhabited

/-- Apply one block assignment to a row: overwrite the `vals.length`
coefficients starting at column `off`. -/
def writeBlock (row : List ℚ) (off : ℕ) (vals : List ℚ) : List ℚ :=
  row.take off ++ vals ++ row.drop (off + vals.length)

/-- The five block assignments of one time step `tt`
(`TaskSolverDmp.cpp` lines 108-112), starting at column `off`: the
position, velocity and acceleration rows (width `n_dofs` each), the
time stamp (width 1), and the forcing-term row (width `n_dofs`). -/
def stepWrites (n_dofs : ℕ) (ts : List ℚ) (r : DmpRollout) (tt off : ℕ) :
    List BlockWrite :=
  [⟨off, n_dofs, r.ys.getD tt []⟩,
   ⟨off + n_dofs, n_dofs, r.yds.getD tt []⟩,
   ⟨off + 2 * n_dofs, n_dofs, r.ydds.getD tt []⟩,
   ⟨off + 3 * n_dofs, 1, [ts.getD tt 0]⟩,
   ⟨off + 3 * n_dofs + 1, n_dofs, r.forcing.getD tt []⟩]

/-- The block assignments of the time-step loop (`TaskSolverDmp.cpp`
lines 105-113) for the remaining `m` time steps, the next being `tt`
at column `off`: after each time step the running offset has advanced
by exactly `4 * n_dofs + 1`. -/
def rowWrites (n_dofs : ℕ) (ts : List ℚ) (r : DmpRollout) (tt off : ℕ) :
    ℕ → List BlockWrite
  | 0 => []
  | Nat.succ m =>
    stepWrites n_dofs ts r tt off ++
      rowWrites n_dofs ts r (tt + 1) (off + (4 * n_dofs + 1)) m

/-- All block assignments made for one sample: time steps `0..T-1`
starting at column 0. -/
def sampleRowWrites (n_dofs T : ℕ) (ts : List ℚ) (r : DmpRollout) :
    List BlockWrite :=
  rowWrites n_dofs ts r 0 0 T

/-- Apply a list of block assignments in order. -/
def applyWrites (row : List ℚ) (ws : List BlockWrite) : List ℚ :=
  ws.foldl (fun acc w => writeBlock acc w.off w.vals) row

/-- Method `TaskSolverDmp::performRollouts` (`TaskSolverDmp.cpp` lines
65-115), with the `Dmp` collaborator abstracted as `dmpRoll` (the
composite of `setModelParametersVectors`, `analyticalSolution` and
`statesAsTrajectory`, mapping the per-DOF model-parameter vectors of
one sample to its trajectories).  `samples` is one matrix per DOF;
`n_dofs` is the number of matrices and `n_samples` the row count of
the first one.  `cost_vars` is resized to
`n_samples × (n_time_steps * (4 * n_dofs + 1))` (line 86: a fresh
row is modelled with zero-initialized coefficients) and each row is
filled by the block assignments of `sampleRowWrites`. -/
def performRollouts (dmpRoll : List (List ℚ) → DmpRollout)
    (n_time_steps : ℕ) (ts : List ℚ) (samples : List Mat) : Mat :=
  let n_dofs := samples.length
  let n_samples := (samples.getD 0 default).length
  (List.range n_samples).map (fun k =>
    let model_parameters_vec := samples.map (fun s => s.getD k [])
    let r := dmpRoll model_parameters_vec
    applyWrites (List.replicate (n_time_steps * (4 * n_dofs + 1)) 0)
      (sampleRowWrites n_dofs n_time_steps ts r))

theorem runFrom_zero (p : OptParams) (d : DistributionGaussian) (i : ℕ) :
    runFrom p d i 0 = (d, []) := rfl

theorem runFrom_succ (p : OptParams) (d : DistributionGaussian) (i m : ℕ) :
    runFrom p d i (m + 1) =
      ((runFrom p (runStep p i d).dist_new (i + 1) m).1,
        runStep p i d :: (runFrom p (runStep p i d).dist_new (i + 1) m).2) := rfl

theorem runStep_idx (p : OptParams) (i : ℕ) (d : DistributionGaussian) :
    (runStep p i d).idx = i := rfl

theorem runStep_dist (p : OptParams) (i : ℕ) (d : DistributionGaussian) :
    (runStep p i d).dist = d := rfl

theorem runFrom_length (p : OptParams) (d : DistributionGaussian) (i m : ℕ) :
    (runFrom p d i m).2.length = m := by
  induction m generalizing d i with
  | zero => rfl
  | succ m ih => rw [runFrom_succ]; simp [ih]

theorem runFrom_records_shape (p : OptParams) (d : DistributionGaussian) (i m : ℕ) :
    ∀ r ∈ (runFrom p d i m).2, r = runStep p r.idx r.dist := by
  induction m generalizing d i with
  | zero => intro r hr; simp [runFrom_zero] at hr
  | succ m ih =>
    intro r hr
    rw [runFrom_succ] at hr
    simp only [List.mem_cons] at hr
    rcases hr with hr | hr
    · subst hr; rfl
    · exact ih _ _ r hr

theorem runFrom_getD_idx (p : OptParams) (d : DistributionGaussian) (i m j : ℕ)
    (hj : j < m) : ((runFrom p d i m).2.getD j default).idx = i + j := by
  induction m generalizing d i j with
  | zero => omega
  | succ m ih =>
    rw [runFrom_succ]
    cases j with
    | zero => simp [runStep_idx]
    | succ j =>
      simp only [List.getD_cons_succ]
      rw [ih _ _ j (by omega)]
      omega

theorem runFrom_head_dist (p : OptParams) (d : DistributionGaussian) (i m : ℕ)
    (hm : 0 < m) : ((runFrom p d i m).2.getD 0 default).dist = d := by
  cases m with
  | zero => omega
  | succ m => rw [runFrom_succ]; simp [runStep_dist]

theorem runFrom_chain (p : OptParams) (d : DistributionGaussian) (i m j : ℕ)
    (hj : j + 1 < m) :
    ((runFrom p d i m).2.getD (j + 1) default).dist =
      ((runFrom p d i m).2.getD j default).dist_new := by
  induction m generalizing d i j with
  | zero => omega
  | succ m ih =>
    rw [runFrom_succ]
    cases j with
    | zero =>
      simp only [List.getD_cons_succ, List.getD_cons_zero]
      exact runFrom_head_dist p _ _ m (by omega)
    | succ j =>
      simp only [List.getD_cons_succ]
      exact ih _ _ j (by omega)

theorem runFrom_final (p : OptParams) (d : DistributionGaussian) (i m : ℕ)
    (hm : 0 < m) :
    (runFrom p d i m).1 = ((runFrom p d i m).2.getD (m - 1) default).dist_new := by
  induction m generalizing d i with
  | zero => omega
  | succ m ih =>
    rw [runFrom_succ]
    cases m with
    | zero => simp [runFrom_zero]
    | succ m =>
      simp only [Nat.succ_sub_one, List.getD_cons_succ]
      exact ih _ _ (by omega)

theorem runFrom_getD_mem (p : OptParams) (d : DistributionGaussian) (i m j : ℕ)
    (hj : j < m) : (runFrom p d i m).2.getD j default ∈ (runFrom p d i m).2 := by
  have hlen : j < (runFrom p d i m).2.length := by rw [runFrom_length]; exact hj
  rw [List.getD_eq_getElem _ _ hlen]
  exact List.getElem_mem hlen

/-- C1. After each iteration `i` of `runOptimization` the current
distribution is exactly the new distribution the updater returned at
iteration `i` — the updater is called on the very
pre-update distribution, samples and costs of that iteration, and its
output is installed unconditionally (line 209), with no loop-side
modification and no acceptance test: the distribution at the start of
iteration `i + 1` (or the final distribution, after the last
iteration) is the updater output, unchanged. -/
theorem runOptimization_update_accepted_unconditionally (p : OptParams)
    (d0 : DistributionGaussian) (n i : ℕ) (hi : i < n) :
    (((runOptimization p d0 n).records.getD i default).dist_new =
       (p.updater ((runOptimization p d0 n).records.getD i default).dist
         ((runOptimization p d0 n).records.getD i default).samples
         ((runOptimization p d0 n).records.getD i default).costs).2) ∧
    (i + 1 < n →
      ((runOptimization p d0 n).records.getD (i + 1) default).dist =
        ((runOptimization p d0 n).records.getD i default).dist_new) ∧
    (i + 1 = n →
      (runOptimization p d0 n).final_dist =
        ((runOptimization p d0 n).records.getD i default).dist_new) := by
  have hrec : (runOptimization p d0 n).records = (runFrom p d0 0 n).2 := rfl
  have hfin : (runOptimization p d0 n).final_dist = (runFrom p d0 0 n).1 := rfl
  refine ⟨?_, ?_, ?_⟩
  · rw [hrec]
    have hmem := runFrom_getD_mem p d0 0 n i hi
    have hshape := runFrom_records_shape p d0 0 n _ hmem
    set r := (runFrom p d0 0 n).2.getD i default with hr
    calc r.dist_new = (runStep p r.idx r.dist).dist_new := by rw [← hshape]
    _ = (p.updater r.dist r.samples r.costs).2 := by
        rw [hshape]; rfl
  · intro hi1
    rw [hrec]
    exact runFrom_chain p d0 0 n i hi1
  · intro hi1
    rw [hrec, hfin, runFrom_final p d0 0 n (by omega)]
    have : n - 1 = i := by omega
    rw [this]

theorem filterMap_eq_map_of_forall {α β : Type} (l : List α) (f : α → Option β)
    (g : α → β) (h : ∀ x ∈ l, f x = some (g x)) : l.filterMap f = l.map g := by
  induction l with
  | nil => rfl
  | cons a l ih =>
    rw [List.filterMap_cons, h a (by simp), List.map_cons,
      ih (fun x hx => h x (by simp [hx]))]

theorem getD_map_eq {α β : Type} [Inhabited α] (l : List α) (g : α → β) (dfl : β)
    (i : ℕ) (hi : i < l.length) : (l.map g).getD i dfl = g (l.getD i default) := by
  have h1 : i < (l.map g).length := by simpa using hi
  rw [List.getD_eq_getElem _ _ h1, List.getD_eq_getElem _ _ hi, List.getElem_map]

theorem runStep_cost_eval (p : OptParams) (i : ℕ) (d : DistributionGaussian) :
    (runStep p i d).cost_eval = p.cf d.mean := rfl

theorem runStep_lc_row (p : OptParams) (i : ℕ) (d : DistributionGaussian) :
    (runStep p i d).lc_row =
      if p.save_directory = "" then none
      else some [((i * p.n_samples_per_update : ℕ) : ℚ), p.cf d.mean,
        p.sqrtQ (p.maxEig d.covar)] := rfl

/-- C2. With a non-empty `save_directory`, row `i` of the learning
curve is exactly `[i * n_samples_per_update, cost of evaluating the
current distribution mean at iteration i, sqrt of the dominant
eigenvalue of the current distribution covariance at iteration i]`
(`runOptimization.cpp` lines 196-200; `maxEigenValue` and `sqrt` are
the abstracted collaborators `maxEig` and `sqrtQ`). -/
theorem runOptimization_learning_curve_rows (p : OptParams)
    (d0 : DistributionGaussian) (n i : ℕ) (hdir : p.save_directory ≠ "")
    (hi : i < n) :
    (runOptimization p d0 n).learning_curve.getD i [] =
      [((i * p.n_samples_per_update : ℕ) : ℚ),
       p.cf (((runOptimization p d0 n).records.getD i default).dist.mean),
       p.sqrtQ (p.maxEig
         (((runOptimization p d0 n).records.getD i default).dist.covar))] := by
  have hrec : (runOptimization p d0 n).records = (runFrom p d0 0 n).2 := rfl
  have hlc : (runOptimization p d0 n).learning_curve =
      (runFrom p d0 0 n).2.filterMap IterationRecord.lc_row := rfl
  have hmap : (runFrom p d0 0 n).2.filterMap IterationRecord.lc_row =
      (runFrom p d0 0 n).2.map (fun r =>
        [((r.idx * p.n_samples_per_update : ℕ) : ℚ), p.cf r.dist.mean,
          p.sqrtQ (p.maxEig r.dist.covar)]) := by
    apply filterMap_eq_map_of_forall
    intro r hr
    have hshape := runFrom_records_shape p d0 0 n r hr
    rw [hshape, runStep_lc_row, runStep_dist, runStep_idx]
    simp [hdir]
  have hlen : i < (runFrom p d0 0 n).2.length := by rw [runFrom_length]; exact hi
  rw [hlc, hmap, getD_map_eq _ _ _ i hlen, hrec]
  have hidx := runFrom_getD_idx p d0 0 n i hi
  rw [hidx]
  have hmem := runFrom_getD_mem p d0 0 n i hi
  have hshape := runFrom_records_shape p d0 0 n _ hmem
  simp only [Nat.zero_add]

theorem filter_isEvalMean_map_evalSample (l : List ℚ) :
    (l.map Event.evalSample).filter Event.isEvalMean = [] := by
  induction l with
  | nil => rfl
  | cons a l ih => simp [List.filter_cons, Event.isEvalMean, ih]

theorem runStep_events (p : OptParams) (i : ℕ) (d : DistributionGaussian) :
    (runStep p i d).events =
      Event.evalMean (p.cf d.mean) :: Event.drawSamples ::
        ((runStep p i d).costs.map Event.evalSample ++ [Event.updateDist] ++
          (if p.save_directory = "" then [Event.printProgress (p.cf d.mean) d]
           else []) ++
          (match (runStep p i d).save_result with
           | some b => [Event.saveCall b]
           | none => [])) := rfl

theorem runStep_events_filter_evalMean (p : OptParams) (i : ℕ)
    (d : DistributionGaussian) :
    (runStep p i d).events.filter Event.isEvalMean =
      [Event.evalMean (p.cf d.mean)] := by
  rw [runStep_events]
  rw [List.filter_cons, List.filter_cons]
  simp only [Event.isEvalMean, if_true, if_false]
  rw [List.filter_append, List.filter_append, List.filter_append]
  rw [filter_isEvalMean_map_evalSample]
  have h1 : ([Event.updateDist] : List Event).filter Event.isEvalMean = [] := rfl
  have h2 : ((if p.save_directory = ""
      then [Event.printProgress (p.cf d.mean) d] else []) : List Event).filter
        Event.isEvalMean = [] := by
    by_cases h : p.save_directory = "" <;> simp [h, List.filter_cons, Event.isEvalMean]
  have h3 : ((match (runStep p i d).save_result with
      | some b => [Event.saveCall b]
      | none => []) : List Event).filter Event.isEvalMean = [] := by
    cases (runStep p i d).save_result <;>
      simp [List.filter_cons, Event.isEvalMean]
  rw [h1, h2, h3]
  rfl

/-- C3. In every iteration `i` the pre-update probe cost is obtained
by evaluating the cost function at the mean of the current
distribution exactly once (exactly one mean-evaluation event in the
trace of that iteration), this evaluation is the first action of the iteration and in
particular precedes the sample draw, and the recorded value equals
the cost of the mean of the distribution current at iteration `i`
(recomputed there, never carried over from a previous iteration). -/
theorem runOptimization_probe_cost_once_before_samples (p : OptParams)
    (d0 : DistributionGaussian) (n i : ℕ) (hi : i < n) :
    (((runOptimization p d0 n).records.getD i default).events.take 2 =
      [Event.evalMean (p.cf
          (((runOptimization p d0 n).records.getD i default).dist.mean)),
       Event.drawSamples]) ∧
    ((((runOptimization p d0 n).records.getD i default).events.filter
        Event.isEvalMean).length = 1) ∧
    (((runOptimization p d0 n).records.getD i default).cost_eval =
      p.cf (((runOptimization p d0 n).records.getD i default).dist.mean)) := by
  have hrec : (runOptimization p d0 n).records = (runFrom p d0 0 n).2 := rfl
  rw [hrec]
  have hmem := runFrom_getD_mem p d0 0 n i hi
  have hshape := runFrom_records_shape p d0 0 n _ hmem
  set r := (runFrom p d0 0 n).2.getD i default with hr
  refine ⟨?_, ?_, ?_⟩
  · conv_lhs => rw [hshape, runStep_events]
    conv_rhs => rw [hshape, runStep_dist]
    rfl
  · conv_lhs => rw [hshape, runStep_events_filter_evalMean]
    rfl
  · conv_lhs => rw [hshape, runStep_cost_eval]

/-- A concrete cost function for witness runs: the first coordinate of
the parameter vector. -/
def cfTest : List ℚ → ℚ := fun v => v.getD 0 0

/-- A concrete 1-dimensional initial distribution for witness runs. -/
def dgTest : DistributionGaussian := ⟨[0], [[1]]⟩

/-- A second concrete distribution, distinct from anything a `pTest`
run produces. -/
def dgTest2 : DistributionGaussian := ⟨[5], [[2]]⟩

/-- A concrete parameter set for witness runs: every collaborator is
an explicit computable closure. -/
def pTest : OptParams :=
  { cf := cfTest
    updater := fun d _ c => (c, ⟨c, d.covar⟩)
    gen := fun i _ => [[(i : ℚ)], [(i : ℚ)]]
    maxEig := fun m => (m.getD 0 []).getD 0 0
    sqrtQ := fun x => x
    n_samples_per_update := 2
    save_directory := "out"
    overwrite := false
    only_learning_curve := false
    fs := allOkFS }

theorem runOptimization_update_accepted_unconditionally_witness :
    1 < 2 ∧
    ((((runOptimization pTest dgTest 2).records.getD 1 default).dist_new =
       (pTest.updater
         ((runOptimization pTest dgTest 2).records.getD 1 default).dist
         ((runOptimization pTest dgTest 2).records.getD 1 default).samples
         ((runOptimization pTest dgTest 2).records.getD 1 default).costs).2) ∧
     (1 + 1 < 2 →
       ((runOptimization pTest dgTest 2).records.getD (1 + 1) default).dist =
         ((runOptimization pTest dgTest 2).records.getD 1 default).dist_new) ∧
     (1 + 1 = 2 →
       (runOptimization pTest dgTest 2).final_dist =
         ((runOptimization pTest dgTest 2).records.getD 1 default).dist_new)) :=
  ⟨by decide,
   runOptimization_update_accepted_unconditionally pTest dgTest 2 1 (by decide)⟩

theorem runOptimization_learning_curve_rows_witness :
    (pTest.save_directory ≠ "" ∧ 1 < 2) ∧
    (runOptimization pTest dgTest 2).learning_curve.getD 1 [] =
      [((1 * pTest.n_samples_per_update : ℕ) : ℚ),
       pTest.cf (((runOptimization pTest dgTest 2).records.getD 1 default).dist.mean),
       pTest.sqrtQ (pTest.maxEig
         (((runOptimization pTest dgTest 2).records.getD 1 default).dist.covar))] :=
  ⟨⟨by decide, by decide⟩,
   runOptimization_learning_curve_rows pTest dgTest 2 1 (by decide) (by decide)⟩

theorem runOptimization_probe_cost_once_before_samples_witness :
    1 < 2 ∧
    ((((runOptimization pTest dgTest 2).records.getD 1 default).events.take 2 =
      [Event.evalMean (pTest.cf
          (((runOptimization pTest dgTest 2).records.getD 1 default).dist.mean)),
       Event.drawSamples]) ∧
     ((((runOptimization pTest dgTest 2).records.getD 1 default).events.filter
         Event.isEvalMean).length = 1) ∧
     (((runOptimization pTest dgTest 2).records.getD 1 default).cost_eval =
       pTest.cf
         (((runOptimization pTest dgTest 2).records.getD 1 default).dist.mean))) :=
  ⟨by decide,
   runOptimization_probe_cost_once_before_samples pTest dgTest 2 1 (by decide)⟩

/-- C4 counterexample. The source performs no validation of
`n_updates`: at the violating input `n_updates = 0` the run is not
aborted with a configuration error — it completes normally, executing
zero iterations, returning control with the initial distribution
still current, and even writing the (empty) learning curve. -/
theorem runOptimization_no_validation_cex :
    (runOptimization pTest dgTest 0).records = [] ∧
    (runOptimization pTest dgTest 0).final_dist = dgTest ∧
    (runOptimization pTest dgTest 0).lc_save = some true := by
  decide

/-- C4 amended. Function `runOptimization` performs no validation of
`n_updates` or `n_samples_per_update` and has no failure path of its
own: with `n_updates = 0` the loop body never executes and the run
completes normally with the initial distribution as the final one,
and for every `n_updates` the loop simply executes exactly that many
iterations. -/
theorem runOptimization_no_validation (p : OptParams)
    (d0 : DistributionGaussian) :
    (runOptimization p d0 0).records = [] ∧
    (runOptimization p d0 0).final_dist = d0 ∧
    ∀ n : ℕ, (runOptimization p d0 n).records.length = n := by
  refine ⟨rfl, rfl, fun n => ?_⟩
  exact runFrom_length p d0 0 n

/-- Is this event anything other than the checkpoint call? -/
def Event.notSave (e : Event) : Bool := !e.isSaveCall

theorem Event.notSave_evalMean (c : ℚ) :
    Event.notSave (Event.evalMean c) = true := rfl

theorem Event.notSave_drawSamples : Event.notSave Event.drawSamples = true := rfl

theorem Event.notSave_evalSample (c : ℚ) :
    Event.notSave (Event.evalSample c) = true := rfl

theorem Event.notSave_updateDist : Event.notSave Event.updateDist = true := rfl

theorem Event.notSave_printProgress (c : ℚ) (d : DistributionGaussian) :
    Event.notSave (Event.printProgress c d) = true := rfl

theorem Event.notSave_saveCall (b : Bool) :
    Event.notSave (Event.saveCall b) = false := rfl

/-- The loop-observable content of an iteration record: everything
except the checkpoint boolean that line 204 of the source discards
(the trace is kept up to the `saveCall` bookkeeping event). -/
structure LoopView where
  idx : ℕ
  dist : DistributionGaussian
  cost_eval : ℚ
  samples : Mat
  costs : List ℚ
  weights : List ℚ
  dist_new : DistributionGaussian
  lc_row : Option (List ℚ)
  loop_events : List Event
deriving DecidableEq

/-- Project an iteration record onto its loop-observable content. -/
def nonSaveView (r : IterationRecord) : LoopView :=
  ⟨r.idx, r.dist, r.cost_eval, r.samples, r.costs, r.weights, r.dist_new,
   r.lc_row, r.events.filter Event.notSave⟩

theorem filter_notSave_map_evalSample (l : List ℚ) :
    (l.map Event.evalSample).filter Event.notSave = l.map Event.evalSample := by
  induction l with
  | nil => rfl
  | cons a l ih => simp [List.filter_cons, Event.notSave_evalSample, ih]

theorem filter_notSave_events (p : OptParams) (i : ℕ) (d : DistributionGaussian) :
    (runStep p i d).events.filter Event.notSave =
      Event.evalMean (p.cf d.mean) :: Event.drawSamples ::
        ((runStep p i d).costs.map Event.evalSample ++ [Event.updateDist] ++
          (if p.save_directory = "" then [Event.printProgress (p.cf d.mean) d]
           else [])) := by
  rw [runStep_events]
  cases hs : (runStep p i d).save_result <;>
    by_cases hdir : p.save_directory = "" <;>
      simp [hs, hdir, List.filter_cons, List.filter_append,
        Event.notSave_evalMean, Event.notSave_drawSamples,
        Event.notSave_updateDist, Event.notSave_printProgress,
        Event.notSave_saveCall, filter_notSave_map_evalSample]

theorem nonSaveView_runStep_fs (p : OptParams) (fs1 fs2 : FS) (i : ℕ)
    (d : DistributionGaussian) :
    nonSaveView (runStep (p.withFS fs1) i d) =
      nonSaveView (runStep (p.withFS fs2) i d) := by
  simp only [nonSaveView]
  rw [filter_notSave_events, filter_notSave_events]
  rfl

theorem runStep_dist_new_fs (p : OptParams) (fs1 fs2 : FS) (i : ℕ)
    (d : DistributionGaussian) :
    (runStep (p.withFS fs1) i d).dist_new =
      (runStep (p.withFS fs2) i d).dist_new := rfl

theorem runFrom_fs_invariant (p : OptParams) (fs1 fs2 : FS) (m : ℕ) :
    ∀ (d : DistributionGaussian) (i : ℕ),
    (runFrom (p.withFS fs1) d i m).1 = (runFrom (p.withFS fs2) d i m).1 ∧
    (runFrom (p.withFS fs1) d i m).2.map nonSaveView =
      (runFrom (p.withFS fs2) d i m).2.map nonSaveView := by
  induction m with
  | zero => intro d i; exact ⟨rfl, rfl⟩
  | succ m ih =>
    intro d i
    rw [runFrom_succ, runFrom_succ]
    have hdn := runStep_dist_new_fs p fs1 fs2 i d
    constructor
    · simp only [hdn]
      exact (ih _ (i + 1)).1
    · simp only [List.map_cons]
      rw [nonSaveView_runStep_fs p fs1 fs2 i d]
      rw [hdn]
      rw [(ih _ (i + 1)).2]

/-- C5 counterexample. Function `runOptimization` is declared `void`: its
return value carries nothing.  Two concrete runs whose optimization
results (final distributions) differ return the identical value to
the caller, so the final distribution is not returned to the
caller. -/
theorem runOptimization_void_return_cex :
    runOptimizationReturnValue pTest dgTest 2 =
      runOptimizationReturnValue
        ({ pTest with updater := fun _ _ _ => ([], dgTest2) }) dgTest 2 ∧
    (runOptimization pTest dgTest 2).final_dist ≠
      (runOptimization
        ({ pTest with updater := fun _ _ _ => ([], dgTest2) }) dgTest 2).final_dist := by
  exact ⟨rfl, by decide⟩

/-- C5 amended. Function `runOptimization` is `void` and returns nothing to
the caller; in runs where checkpoint persistence fails the run
nevertheless continues to completion — all `n` iterations execute —
and the optimization result (the final distribution) is exactly the
one a run with a fully working filesystem produces, so it remains
available (in the loop state) though never returned. -/
theorem runOptimization_result_survives_save_failure (p : OptParams)
    (d0 : DistributionGaussian) (n : ℕ) (fs1 fs2 : FS) :
    runOptimizationReturnValue (p.withFS fs1) d0 n = () ∧
    (runOptimization (p.withFS fs1) d0 n).records.length = n ∧
    (runOptimization (p.withFS fs1) d0 n).final_dist =
      (runOptimization (p.withFS fs2) d0 n).final_dist := by
  refine ⟨rfl, runFrom_length _ d0 0 n, ?_⟩
  exact (runFrom_fs_invariant p fs1 fs2 n d0 0).1

/-- A filesystem on which every directory creation succeeds but every
file write fails. -/
def fsFail : FS := ⟨fun _ => false, fun _ => true, fun _ => false⟩

/-- C6 counterexample. In a concrete run where every per-iteration
checkpoint write fails (`saveToDirectory` returns `false`, recorded in
`save_result`), the optimization loop does not abort — both iterations
still execute and the final distribution is that of the all-success
run — but it also does not report the failure: the loop discards the
returned boolean, and its observable behavior (every recorded datum
and every trace event up to the discarded boolean) is identical to
the run where every write succeeds, so no failure report of any kind
is produced by the loop. -/
theorem runOptimization_save_failure_unreported_cex :
    (((runOptimization (pTest.withFS fsFail) dgTest 2).records.getD 0
        default).save_result = some false) ∧
    ((runOptimization (pTest.withFS fsFail) dgTest 2).records.length = 2) ∧
    ((runOptimization (pTest.withFS fsFail) dgTest 2).final_dist =
      (runOptimization pTest dgTest 2).final_dist) ∧
    ((runOptimization (pTest.withFS fsFail) dgTest 2).records.map nonSaveView =
      (runOptimization pTest dgTest 2).records.map nonSaveView) := by
  exact ⟨by decide, by decide, by decide, by decide⟩

/-- C6 amended. When a per-iteration checkpoint write fails
(`saveToDirectory` returns `false`), the optimization loop ignores
the returned boolean: it does not abort — the remaining iterations
still execute and the run completes — and it does not itself report
the failure, behaving identically (in every recorded datum and every
trace event except the discarded boolean) to a run in which every
write succeeds.  (Directory-creation failures are reported to stderr
inside `saveToDirectory` itself, not by the loop.) -/
theorem runOptimization_save_failure_no_report_no_abort (p : OptParams)
    (d0 : DistributionGaussian) (n : ℕ) (fs1 fs2 : FS) :
    (runOptimization (p.withFS fs1) d0 n).records.length = n ∧
    (runOptimization (p.withFS fs1) d0 n).records.map nonSaveView =
      (runOptimization (p.withFS fs2) d0 n).records.map nonSaveView ∧
    (runOptimization (p.withFS fs1) d0 n).final_dist =
      (runOptimization (p.withFS fs2) d0 n).final_dist := by
  refine ⟨runFrom_length _ d0 0 n, ?_, ?_⟩
  · exact (runFrom_fs_invariant p fs1 fs2 n d0 0).2
  · exact (runFrom_fs_invariant p fs1 fs2 n d0 0).1

theorem saveMatrix_allOk (dir file : String) (ow : Bool) :
    saveMatrix allOkFS dir file ow = true := rfl

theorem writeAll_allOk (dir : String) (ow : Bool) (planned : List (String × Mat)) :
    writeAll allOkFS dir ow planned = (true, planned) := by
  induction planned with
  | nil => rfl
  | cons a rest ih => simp [writeAll, saveMatrix_allOk, ih]

theorem saveToDirectory_allOk (directory : String) (i_update : ℕ)
    (dists : List DistributionGaussian) (cost_eval : Option ℚ) (samples : Mat)
    (costs weights : List ℚ) (dists_new : List DistributionGaussian) (ow : Bool) :
    saveToDirectory allOkFS directory i_update dists cost_eval samples costs
        weights dists_new ow =
      ⟨true, directory ++ "/update" ++ zeroPad 5 i_update,
       plannedWrites dists cost_eval samples costs weights dists_new, []⟩ := by
  simp only [saveToDirectory]
  rw [writeAll_allOk]
  have h1 : (!allOkFS.existsPath directory && !allOkFS.createOk directory) = false := rfl
  have h2 : (!allOkFS.existsPath (directory ++ "/update" ++ zeroPad 5 i_update) &&
      !allOkFS.createOk (directory ++ "/update" ++ zeroPad 5 i_update)) = false := rfl
  rw [h1, h2]
  simp

/-- The checkpoint file layout as the spec describes it: a function of
the number of distributions and of which optional fields are present,
and of nothing else.  (Spec-side description, compared with the
source-side `saveToDirectory` in the layout theorem.) -/
def specLayoutNames (n_dists : ℕ) (has_cost_eval has_samples has_costs has_weights : Prop)
    [Decidable has_cost_eval] [Decidable has_samples] [Decidable has_costs]
    [Decidable has_weights] : List String :=
  (if n_dists = 1 then ["distribution_mean.txt", "distribution_covar.txt"]
   else "n_parallel.txt" ::
     (List.range n_dists).flatMap (fun dd =>
       ["/distribution_" ++ zeroPad 3 dd ++ "_mean.txt",
        "/distribution_" ++ zeroPad 3 dd ++ "_covar.txt"])) ++
  ((if has_cost_eval then ["cost_eval.txt"] else []) ++
   (if has_samples then ["samples.txt"] else []) ++
   (if has_costs then ["costs.txt"] else []) ++
   (if has_weights then ["weights.txt"] else [])) ++
  (if n_dists = 1 then ["distribution_new_mean.txt", "distribution_new_covar.txt"]
   else (List.range n_dists).flatMap (fun dd =>
     ["/distribution_new_" ++ zeroPad 3 dd ++ "_mean.txt",
      "/distribution_new_" ++ zeroPad 3 dd ++ "_covar.txt"]))

theorem map_fst_flatMap_pairs (l : List ℕ) (f g : ℕ → String) (x y : ℕ → Mat) :
    ((l.flatMap (fun a => [(f a, x a), (g a, y a)])).map Prod.fst) =
      l.flatMap (fun a => [f a, g a]) := by
  induction l with
  | nil => rfl
  | cons a l ih => simp [List.flatMap_cons, ih]

theorem headWrites_names (dists : List DistributionGaussian) :
    (headWrites dists).map Prod.fst =
      (if dists.length = 1 then ["distribution_mean.txt", "distribution_covar.txt"]
       else "n_parallel.txt" ::
         (List.range dists.length).flatMap (fun dd =>
           ["/distribution_" ++ zeroPad 3 dd ++ "_mean.txt",
            "/distribution_" ++ zeroPad 3 dd ++ "_covar.txt"])) := by
  unfold headWrites
  by_cases h : dists.length = 1 <;> simp [h, map_fst_flatMap_pairs]

theorem optionalWrites_names (cost_eval : Option ℚ) (samples : Mat)
    (costs weights : List ℚ) :
    (optionalWrites cost_eval samples costs weights).map Prod.fst =
      ((if cost_eval.isSome = true then ["cost_eval.txt"] else []) ++
       (if 0 < matSize samples then ["samples.txt"] else []) ++
       (if 0 < costs.length then ["costs.txt"] else []) ++
       (if 0 < weights.length then ["weights.txt"] else [])) := by
  unfold optionalWrites
  cases cost_eval <;>
    by_cases hs : 0 < matSize samples <;>
      by_cases hc : 0 < costs.length <;>
        by_cases hw : 0 < weights.length <;>
          simp [hs, hc, hw]

theorem tailWrites_names (dists dists_new : List DistributionGaussian) :
    (tailWrites dists dists_new).map Prod.fst =
      (if dists.length = 1
       then ["distribution_new_mean.txt", "distribution_new_covar.txt"]
       else (List.range dists.length).flatMap (fun dd =>
         ["/distribution_new_" ++ zeroPad 3 dd ++ "_mean.txt",
          "/distribution_new_" ++ zeroPad 3 dd ++ "_covar.txt"])) := by
  unfold tailWrites
  by_cases h : dists.length = 1 <;> simp [h, map_fst_flatMap_pairs]

theorem plannedWrites_names (dists : List DistributionGaussian)
    (cost_eval : Option ℚ) (samples : Mat) (costs weights : List ℚ)
    (dists_new : List DistributionGaussian) :
    (plannedWrites dists cost_eval samples costs weights dists_new).map Prod.fst =
      specLayoutNames dists.length (cost_eval.isSome = true) (0 < matSize samples)
        (0 < costs.length) (0 < weights.length) := by
  unfold plannedWrites specLayoutNames
  rw [List.map_append, List.map_append]
  rw [headWrites_names, optionalWrites_names, tailWrites_names]

/-- C7. `saveToDirectory` derives the checkpoint layout solely from
the number of distributions passed (and the presence of the optional
fields): the file names attempted are exactly `specLayoutNames` of the
count — with one distribution `distribution_mean.txt` and
`distribution_covar.txt`, with more than one `n_parallel.txt` first
(whose content is the one-element vector holding the count) followed
by per-distribution files carrying a zero-padded 3-digit index — and
the update subdirectory name carries a zero-padded 5-digit index. -/
theorem saveToDirectory_layout_by_count (directory : String) (i_update : ℕ)
    (dists : List DistributionGaussian) (cost_eval : Option ℚ) (samples : Mat)
    (costs weights : List ℚ) (dists_new : List DistributionGaussian) (ow : Bool) :
    ((saveToDirectory allOkFS directory i_update dists cost_eval samples costs
        weights dists_new ow).dirUpdate =
      directory ++ "/update" ++ zeroPad 5 i_update) ∧
    ((saveToDirectory allOkFS directory i_update dists cost_eval samples costs
        weights dists_new ow).attempts.map Prod.fst =
      specLayoutNames dists.length (cost_eval.isSome = true) (0 < matSize samples)
        (0 < costs.length) (0 < weights.length)) ∧
    (1 < dists.length →
      (saveToDirectory allOkFS directory i_update dists cost_eval samples costs
          weights dists_new ow).attempts.head? =
        some ("n_parallel.txt", [[(dists.length : ℚ)]])) := by
  rw [saveToDirectory_allOk]
  refine ⟨rfl, plannedWrites_names dists cost_eval samples costs weights dists_new, ?_⟩
  intro hlen
  have hne : dists.length ≠ 1 := by omega
  unfold plannedWrites headWrites
  simp [hne]

theorem head?_append_left {c : Char} (l1 l2 : List Char) (h : l1.head? = some c) :
    (l1 ++ l2).head? = some c := by
  cases l1 with
  | nil => simp at h
  | cons a t => simpa using h

theorem mem_flatMap_data_head (n : ℕ) (pre1 pre2 suf1 suf2 : String)
    (h1 : pre1.data.head? = some '/') (h2 : pre2.data.head? = some '/') :
    ∀ s ∈ (List.range n).flatMap (fun dd =>
      [pre1 ++ zeroPad 3 dd ++ suf1, pre2 ++ zeroPad 3 dd ++ suf2]),
      s.data.head? = some '/' := by
  intro s hs
  simp only [List.mem_flatMap, List.mem_cons, List.mem_singleton,
    List.not_mem_nil, or_false] at hs
  obtain ⟨dd, _, hcase⟩ := hs
  rcases hcase with h | h <;> subst h <;>
    rw [String.data_append, String.data_append]
  · exact head?_append_left _ _ (head?_append_left _ _ h1)
  · exact head?_append_left _ _ (head?_append_left _ _ h2)

theorem mem_specLayout_iff (nm : String)
    (hslash : nm.data.head? ≠ some '/')
    (hn1 : nm ≠ "n_parallel.txt")
    (hn2 : nm ≠ "distribution_mean.txt") (hn3 : nm ≠ "distribution_covar.txt")
    (hn4 : nm ≠ "distribution_new_mean.txt")
    (hn5 : nm ≠ "distribution_new_covar.txt")
    (n : ℕ) (hc hs hco hw : Prop) [Decidable hc] [Decidable hs] [Decidable hco]
    [Decidable hw] :
    (nm ∈ specLayoutNames n hc hs hco hw) ↔
      (nm ∈ ((if hc then ["cost_eval.txt"] else []) ++
             (if hs then ["samples.txt"] else []) ++
             (if hco then ["costs.txt"] else []) ++
             (if hw then ["weights.txt"] else []) : List String)) := by
  unfold specLayoutNames
  have hA : nm ∉ (if n = 1 then ["distribution_mean.txt", "distribution_covar.txt"]
      else "n_parallel.txt" :: (List.range n).flatMap (fun dd =>
        ["/distribution_" ++ zeroPad 3 dd ++ "_mean.txt",
         "/distribution_" ++ zeroPad 3 dd ++ "_covar.txt"])) := by
    by_cases h : n = 1
    · simp [h, hn2, hn3]
    · rw [if_neg h]
      simp only [List.mem_cons, not_or]
      refine ⟨hn1, ?_⟩
      intro hm
      exact hslash
        (mem_flatMap_data_head n _ _ _ _ (by decide) (by decide) nm hm)
  have hC : nm ∉ (if n = 1
      then ["distribution_new_mean.txt", "distribution_new_covar.txt"]
      else (List.range n).flatMap (fun dd =>
        ["/distribution_new_" ++ zeroPad 3 dd ++ "_mean.txt",
         "/distribution_new_" ++ zeroPad 3 dd ++ "_covar.txt"])) := by
    by_cases h : n = 1
    · simp [h, hn4, hn5]
    · rw [if_neg h]
      intro hm
      exact hslash
        (mem_flatMap_data_head n _ _ _ _ (by decide) (by decide) nm hm)
  simp [List.mem_append, hA, hC]

theorem mem_specLayout_cost_eval (n : ℕ) (hc hs hco hw : Prop) [Decidable hc]
    [Decidable hs] [Decidable hco] [Decidable hw] :
    ("cost_eval.txt" ∈ specLayoutNames n hc hs hco hw) ↔ hc := by
  rw [mem_specLayout_iff "cost_eval.txt" (by decide) (by decide) (by decide)
    (by decide) (by decide) (by decide) n hc hs hco hw]
  by_cases h1 : hc <;> by_cases h2 : hs <;> by_cases h3 : hco <;>
    by_cases h4 : hw <;> simp [h1, h2, h3, h4]

theorem mem_specLayout_samples (n : ℕ) (hc hs hco hw : Prop) [Decidable hc]
    [Decidable hs] [Decidable hco] [Decidable hw] :
    ("samples.txt" ∈ specLayoutNames n hc hs hco hw) ↔ hs := by
  rw [mem_specLayout_iff "samples.txt" (by decide) (by decide) (by decide)
    (by decide) (by decide) (by decide) n hc hs hco hw]
  by_cases h1 : hc <;> by_cases h2 : hs <;> by_cases h3 : hco <;>
    by_cases h4 : hw <;> simp [h1, h2, h3, h4]

theorem mem_specLayout_costs (n : ℕ) (hc hs hco hw : Prop) [Decidable hc]
    [Decidable hs] [Decidable hco] [Decidable hw] :
    ("costs.txt" ∈ specLayoutNames n hc hs hco hw) ↔ hco := by
  rw [mem_specLayout_iff "costs.txt" (by decide) (by decide) (by decide)
    (by decide) (by decide) (by decide) n hc hs hco hw]
  by_cases h1 : hc <;> by_cases h2 : hs <;> by_cases h3 : hco <;>
    by_cases h4 : hw <;> simp [h1, h2, h3, h4]

theorem mem_specLayout_weights (n : ℕ) (hc hs hco hw : Prop) [Decidable hc]
    [Decidable hs] [Decidable hco] [Decidable hw] :
    ("weights.txt" ∈ specLayoutNames n hc hs hco hw) ↔ hw := by
  rw [mem_specLayout_iff "weights.txt" (by decide) (by decide) (by decide)
    (by decide) (by decide) (by decide) n hc hs hco hw]
  by_cases h1 : hc <;> by_cases h2 : hs <;> by_cases h3 : hco <;>
    by_cases h4 : hw <;> simp [h1, h2, h3, h4]

/-- C8. `saveToDirectory` skips each optional field that is absent or
empty, and skipping is not an error: on a filesystem where every
write succeeds the call returns `true`, and `cost_eval.txt` is among
the attempted writes exactly when the probe-cost pointer is provided,
while `samples.txt`, `costs.txt` and `weights.txt` are attempted
exactly when the corresponding matrix or vector has nonzero size. -/
theorem saveToDirectory_optional_fields_skipped (directory : String)
    (i_update : ℕ) (dists : List DistributionGaussian) (cost_eval : Option ℚ)
    (samples : Mat) (costs weights : List ℚ)
    (dists_new : List DistributionGaussian) (ow : Bool) :
    ((saveToDirectory allOkFS directory i_update dists cost_eval samples costs
        weights dists_new ow).ok = true) ∧
    (("cost_eval.txt" ∈ (saveToDirectory allOkFS directory i_update dists
        cost_eval samples costs weights dists_new ow).attempts.map Prod.fst) ↔
      cost_eval.isSome = true) ∧
    (("samples.txt" ∈ (saveToDirectory allOkFS directory i_update dists
        cost_eval samples costs weights dists_new ow).attempts.map Prod.fst) ↔
      0 < matSize samples) ∧
    (("costs.txt" ∈ (saveToDirectory allOkFS directory i_update dists
        cost_eval samples costs weights dists_new ow).attempts.map Prod.fst) ↔
      0 < costs.length) ∧
    (("weights.txt" ∈ (saveToDirectory allOkFS directory i_update dists
        cost_eval samples costs weights dists_new ow).attempts.map Prod.fst) ↔
      0 < weights.length) := by
  simp only [saveToDirectory_allOk, plannedWrites_names]
  exact ⟨trivial, mem_specLayout_cost_eval _ _ _ _ _,
    mem_specLayout_samples _ _ _ _ _, mem_specLayout_costs _ _ _ _ _,
    mem_specLayout_weights _ _ _ _ _⟩

theorem writeAll_stops_at_first_failure (fs : FS) (dir : String) (ow : Bool) :
    ∀ (planned : List (String × Mat)) (j : ℕ), j < planned.length →
    (∀ k, k < j → saveMatrix fs dir ((planned.getD k default).1) ow = true) →
    saveMatrix fs dir ((planned.getD j default).1) ow = false →
    writeAll fs dir ow planned = (false, planned.take (j + 1)) := by
  intro planned
  induction planned with
  | nil => intro j hj _ _; simp at hj
  | cons a rest ih =>
    intro j hj hok hfail
    cases j with
    | zero =>
      simp only [List.getD_cons_zero] at hfail
      simp [writeAll, hfail]
    | succ j =>
      have ha : saveMatrix fs dir a.1 ow = true := by
        have h0 := hok 0 (Nat.succ_pos j)
        simpa using h0
      have hrest := ih j (by simpa using hj)
        (fun k hk => by
          have hk1 := hok (k + 1) (by omega)
          simpa using hk1)
        (by simpa using hfail)
      simp [writeAll, ha, hrest]

/-- C9. The first failing step of a `saveToDirectory` call makes the
function return `false` immediately, with no later file of that
checkpoint attempted: (a) when the root directory is missing and its
creation fails, the call returns `false` with no write attempted at
all; (b) likewise when the update subdirectory is missing and its
creation fails; (c) when the directories are available (each exists
or is created), the first failing write stops the call — the
attempted writes are exactly the planned sequence up to and including
the failing one; and (d) a write to an existing file with
`overwrite = false` is a failure of `saveMatrix`, never a silent
skip, so by (c) it stops the checkpoint at that file. -/
theorem saveToDirectory_stops_at_first_failure (fs : FS) (directory : String)
    (i_update : ℕ) (dists : List DistributionGaussian) (cost_eval : Option ℚ)
    (samples : Mat) (costs weights : List ℚ)
    (dists_new : List DistributionGaussian) (ow : Bool) :
    (fs.existsPath directory = false → fs.createOk directory = false →
      (saveToDirectory fs directory i_update dists cost_eval samples costs
        weights dists_new ow).ok = false ∧
      (saveToDirectory fs directory i_update dists cost_eval samples costs
        weights dists_new ow).attempts = []) ∧
    ((fs.existsPath directory = true ∨ fs.createOk directory = true) →
     fs.existsPath (directory ++ "/update" ++ zeroPad 5 i_update) = false →
     fs.createOk (directory ++ "/update" ++ zeroPad 5 i_update) = false →
      (saveToDirectory fs directory i_update dists cost_eval samples costs
        weights dists_new ow).ok = false ∧
      (saveToDirectory fs directory i_update dists cost_eval samples costs
        weights dists_new ow).attempts = []) ∧
    (∀ j : ℕ,
      (fs.existsPath directory = true ∨ fs.createOk directory = true) →
      (fs.existsPath (directory ++ "/update" ++ zeroPad 5 i_update) = true ∨
        fs.createOk (directory ++ "/update" ++ zeroPad 5 i_update) = true) →
      j < (plannedWrites dists cost_eval samples costs weights dists_new).length →
      (∀ k, k < j →
        saveMatrix fs (directory ++ "/update" ++ zeroPad 5 i_update)
          (((plannedWrites dists cost_eval samples costs weights
              dists_new).getD k default).1) ow = true) →
      saveMatrix fs (directory ++ "/update" ++ zeroPad 5 i_update)
        (((plannedWrites dists cost_eval samples costs weights
            dists_new).getD j default).1) ow = false →
      (saveToDirectory fs directory i_update dists cost_eval samples costs
        weights dists_new ow).ok = false ∧
      (saveToDirectory fs directory i_update dists cost_eval samples costs
        weights dists_new ow).attempts =
        (plannedWrites dists cost_eval samples costs weights
          dists_new).take (j + 1)) ∧
    (∀ dir file : String, fs.existsPath (dir ++ "/" ++ file) = true →
      saveMatrix fs dir file false = false) := by
  refine ⟨?_, ?_, ?_, ?_⟩
  · intro h1 h2
    simp only [saveToDirectory, h1, h2, Bool.not_false, Bool.and_self, if_true]
    exact ⟨trivial, trivial⟩
  · intro hd h1 h2
    have hc1 : (!fs.existsPath directory && !fs.createOk directory) = false := by
      rcases hd with h | h <;> simp [h]
    simp only [saveToDirectory, hc1, h1, h2, Bool.not_false, Bool.and_self,
      Bool.false_eq_true, if_false, if_true]
    exact ⟨trivial, trivial⟩
  · intro j hd1 hd2 hj hok hfail
    have hc1 : (!fs.existsPath directory && !fs.createOk directory) = false := by
      rcases hd1 with h | h <;> simp [h]
    have hc2 : (!fs.existsPath (directory ++ "/update" ++ zeroPad 5 i_update) &&
        !fs.createOk (directory ++ "/update" ++ zeroPad 5 i_update)) = false := by
      rcases hd2 with h | h <;> simp [h]
    have hw := writeAll_stops_at_first_failure fs
      (directory ++ "/update" ++ zeroPad 5 i_update) ow _ j hj hok hfail
    simp only [saveToDirectory, hc1, hc2, Bool.false_eq_true, if_false]
    rw [hw]
    exact ⟨rfl, rfl⟩
  · intro dir file hex
    simp [saveMatrix, hex]

theorem saveToDirectory_layout_by_count_witness :
    ((saveToDirectory allOkFS "d" 3 [dgTest, dgTest2] (some 3) [[(1 : ℚ)]]
        [(2 : ℚ)] [] [dgTest2, dgTest] false).dirUpdate =
      "d" ++ "/update" ++ zeroPad 5 3) ∧
    ((saveToDirectory allOkFS "d" 3 [dgTest, dgTest2] (some 3) [[(1 : ℚ)]]
        [(2 : ℚ)] [] [dgTest2, dgTest] false).attempts.map Prod.fst =
      specLayoutNames (List.length [dgTest, dgTest2])
        ((some (3 : ℚ)).isSome = true) (0 < matSize [[(1 : ℚ)]])
        (0 < List.length [(2 : ℚ)]) (0 < List.length ([] : List ℚ))) ∧
    ((saveToDirectory allOkFS "d" 3 [dgTest, dgTest2] (some 3) [[(1 : ℚ)]]
        [(2 : ℚ)] [] [dgTest2, dgTest] false).attempts.head? =
      some ("n_parallel.txt", [[(List.length [dgTest, dgTest2] : ℚ)]])) :=
  ⟨(saveToDirectory_layout_by_count "d" 3 [dgTest, dgTest2] (some 3) [[(1 : ℚ)]]
      [(2 : ℚ)] [] [dgTest2, dgTest] false).1,
   (saveToDirectory_layout_by_count "d" 3 [dgTest, dgTest2] (some 3) [[(1 : ℚ)]]
      [(2 : ℚ)] [] [dgTest2, dgTest] false).2.1,
   (saveToDirectory_layout_by_count "d" 3 [dgTest, dgTest2] (some 3) [[(1 : ℚ)]]
      [(2 : ℚ)] [] [dgTest2, dgTest] false).2.2 (by decide)⟩

theorem saveToDirectory_optional_fields_skipped_witness :
    ((saveToDirectory allOkFS "d" 0 [dgTest] none ([] : Mat) [(4 : ℚ)] []
        [dgTest] true).ok = true) ∧
    (("cost_eval.txt" ∈ (saveToDirectory allOkFS "d" 0 [dgTest] none ([] : Mat)
        [(4 : ℚ)] [] [dgTest] true).attempts.map Prod.fst) ↔
      (none : Option ℚ).isSome = true) ∧
    (("samples.txt" ∈ (saveToDirectory allOkFS "d" 0 [dgTest] none ([] : Mat)
        [(4 : ℚ)] [] [dgTest] true).attempts.map Prod.fst) ↔
      0 < matSize ([] : Mat)) ∧
    (("costs.txt" ∈ (saveToDirectory allOkFS "d" 0 [dgTest] none ([] : Mat)
        [(4 : ℚ)] [] [dgTest] true).attempts.map Prod.fst) ↔
      0 < List.length [(4 : ℚ)]) ∧
    (("weights.txt" ∈ (saveToDirectory allOkFS "d" 0 [dgTest] none ([] : Mat)
        [(4 : ℚ)] [] [dgTest] true).attempts.map Prod.fst) ↔
      0 < List.length ([] : List ℚ)) :=
  saveToDirectory_optional_fields_skipped "d" 0 [dgTest] none ([] : Mat)
    [(4 : ℚ)] [] [dgTest] true

/-- A filesystem for the first-failure witness: the root and update
directories exist, and so does one checkpoint file
(`distribution_covar.txt`), which therefore trips the overwrite
guard. -/
def fsC9 : FS :=
  ⟨fun s => s == "d" || s == "d/update00000" ||
      s == "d/update00000/distribution_covar.txt",
   fun _ => true, fun _ => true⟩

/-- A filesystem on which nothing exists and every directory creation
fails: the very first step of `saveToDirectory` (creating the root
directory) fails on it. -/
def fsNoDir : FS := ⟨fun _ => false, fun _ => false, fun _ => true⟩

theorem saveToDirectory_stops_at_first_failure_witness :
    (fsNoDir.existsPath "d" = false ∧ fsNoDir.createOk "d" = false ∧
     (saveToDirectory fsNoDir "d" 0 [dgTest] none ([] : Mat) [] [] [dgTest2]
        false).ok = false ∧
     (saveToDirectory fsNoDir "d" 0 [dgTest] none ([] : Mat) [] [] [dgTest2]
        false).attempts = []) ∧
    (fsC9.existsPath "d" = true ∧
     fsC9.existsPath ("d" ++ "/update" ++ zeroPad 5 0) = true ∧
     1 < (plannedWrites [dgTest] none ([] : Mat) [] [] [dgTest2]).length ∧
     (∀ k, k < 1 → saveMatrix fsC9 ("d" ++ "/update" ++ zeroPad 5 0)
       (((plannedWrites [dgTest] none ([] : Mat) [] []
           [dgTest2]).getD k default).1) false = true) ∧
     saveMatrix fsC9 ("d" ++ "/update" ++ zeroPad 5 0)
       (((plannedWrites [dgTest] none ([] : Mat) [] []
           [dgTest2]).getD 1 default).1) false = false) ∧
    ((saveToDirectory fsC9 "d" 0 [dgTest] none ([] : Mat) [] [] [dgTest2]
        false).ok = false ∧
     (saveToDirectory fsC9 "d" 0 [dgTest] none ([] : Mat) [] [] [dgTest2]
        false).attempts =
       (plannedWrites [dgTest] none ([] : Mat) [] [] [dgTest2]).take (1 + 1)) :=
  ⟨⟨by decide, by decide,
    (saveToDirectory_stops_at_first_failure fsNoDir "d" 0 [dgTest] none
      ([] : Mat) [] [] [dgTest2] false).1 (by decide) (by decide)⟩,
   ⟨by decide, by decide, by decide, by decide, by decide⟩,
   (saveToDirectory_stops_at_first_failure fsC9 "d" 0 [dgTest] none ([] : Mat)
      [] [] [dgTest2] false).2.2.1 1 (Or.inl (by decide)) (Or.inl (by decide))
      (by decide) (by decide) (by decide)⟩

theorem writeBlock_length (row : List ℚ) (off : ℕ) (vals : List ℚ)
    (h : off + vals.length ≤ row.length) :
    (writeBlock row off vals).length = row.length := by
  unfold writeBlock
  simp only [List.length_append, List.length_take, List.length_drop]
  omega

theorem applyWrites_length (ws : List BlockWrite) :
    ∀ row : List ℚ, (∀ w ∈ ws, w.off + w.vals.length ≤ row.length) →
      (applyWrites row ws).length = row.length := by
  induction ws with
  | nil => intro row _; rfl
  | cons w ws ih =>
    intro row hrow
    have h1 : (writeBlock row w.off w.vals).length = row.length :=
      writeBlock_length row w.off w.vals (hrow w (by simp))
    have h2 := ih (writeBlock row w.off w.vals)
      (fun v hv => by rw [h1]; exact hrow v (by simp [hv]))
    calc (applyWrites row (w :: ws)).length
        = (applyWrites (writeBlock row w.off w.vals) ws).length := rfl
      _ = (writeBlock row w.off w.vals).length := h2
      _ = row.length := h1

theorem rowWrites_bounds (n_dofs : ℕ) (ts : List ℚ) (r : DmpRollout) :
    ∀ (m tt off : ℕ), ∀ w ∈ rowWrites n_dofs ts r tt off m,
      off ≤ w.off ∧ w.off + w.width ≤ off + m * (4 * n_dofs + 1) := by
  intro m
  induction m with
  | zero => intro tt off w hw; simp [rowWrites] at hw
  | succ m ih =>
    intro tt off w hw
    simp only [rowWrites, List.mem_append] at hw
    rcases hw with hw | hw
    · simp only [stepWrites, List.mem_cons, List.not_mem_nil, or_false] at hw
      have hge : 4 * n_dofs + 1 ≤ (m + 1) * (4 * n_dofs + 1) :=
        Nat.le_mul_of_pos_left _ (Nat.succ_pos m)
      rcases hw with h | h | h | h | h <;> subst h <;> dsimp only <;>
        constructor <;> omega
    · obtain ⟨h1, h2⟩ := ih (tt + 1) (off + (4 * n_dofs + 1)) w hw
      have hK : (m + 1) * (4 * n_dofs + 1) =
          m * (4 * n_dofs + 1) + (4 * n_dofs + 1) := by ring
      constructor <;> omega

/-- The shape contract of the abstracted `Dmp` collaborator for one
sample: each trajectory matrix has one row per time step and one
column per DOF (this is what `analyticalSolution` and
`statesAsTrajectory` produce for an `n_dofs`-dimensional DMP). -/
def ValidRollout (n_dofs T : ℕ) (r : DmpRollout) : Prop :=
  r.ys.length = T ∧ (∀ row ∈ r.ys, row.length = n_dofs) ∧
  r.yds.length = T ∧ (∀ row ∈ r.yds, row.length = n_dofs) ∧
  r.ydds.length = T ∧ (∀ row ∈ r.ydds, row.length = n_dofs) ∧
  r.forcing.length = T ∧ (∀ row ∈ r.forcing, row.length = n_dofs)

instance (n_dofs T : ℕ) (r : DmpRollout) : Decidable (ValidRollout n_dofs T r) := by
  unfold ValidRollout
  infer_instance

theorem getD_row_length {l : List (List ℚ)} {T n tt : ℕ} (hlen : l.length = T)
    (hrow : ∀ row ∈ l, row.length = n) (htt : tt < T) :
    (l.getD tt []).length = n := by
  have h : tt < l.length := by omega
  rw [List.getD_eq_getElem _ _ h]
  exact hrow _ (List.getElem_mem h)

theorem rowWrites_vals (n_dofs T : ℕ) (ts : List ℚ) (r : DmpRollout)
    (hr : ValidRollout n_dofs T r) :
    ∀ (m tt off : ℕ), tt + m ≤ T →
      ∀ w ∈ rowWrites n_dofs ts r tt off m, w.vals.length = w.width := by
  obtain ⟨hy1, hy2, hd1, hd2, hdd1, hdd2, hf1, hf2⟩ := hr
  intro m
  induction m with
  | zero => intro tt off _ w hw; simp [rowWrites] at hw
  | succ m ih =>
    intro tt off hT w hw
    simp only [rowWrites, List.mem_append] at hw
    rcases hw with hw | hw
    · have htt : tt < T := by omega
      simp only [stepWrites, List.mem_cons, List.not_mem_nil, or_false] at hw
      rcases hw with h | h | h | h | h <;> subst h <;> dsimp only
      · exact getD_row_length hy1 hy2 htt
      · exact getD_row_length hd1 hd2 htt
      · exact getD_row_length hdd1 hdd2 htt
      · rfl
      · exact getD_row_length hf1 hf2 htt
    · exact ih (tt + 1) (off + (4 * n_dofs + 1)) (by omega) w hw

theorem rowWrites_getD_step_start (n_dofs : ℕ) (ts : List ℚ) (r : DmpRollout) :
    ∀ (m tt off j : ℕ), j < m →
      (rowWrites n_dofs ts r tt off m).getD (5 * j) default =
        ⟨off + j * (4 * n_dofs + 1), n_dofs, r.ys.getD (tt + j) []⟩ := by
  intro m
  induction m with
  | zero => intro tt off j hj; omega
  | succ m ih =>
    intro tt off j hj
    cases j with
    | zero =>
      simp only [Nat.mul_zero, Nat.zero_mul, Nat.add_zero]
      rfl
    | succ j =>
      have h5 : 5 * (j + 1) = 5 + 5 * j := by ring
      simp only [rowWrites]
      rw [h5]
      have hlen : (stepWrites n_dofs ts r tt off).length = 5 := rfl
      rw [List.getD_append_right]
      · rw [hlen]
        have h5j : 5 + 5 * j - 5 = 5 * j := by omega
        rw [h5j, ih (tt + 1) (off + (4 * n_dofs + 1)) j (by omega)]
        have he1 : off + (4 * n_dofs + 1) + j * (4 * n_dofs + 1) =
            off + (j + 1) * (4 * n_dofs + 1) := by ring
        have he2 : tt + 1 + j = tt + (j + 1) := by omega
        rw [he1, he2]
      · rw [hlen]; omega

/-- C10. For a non-empty `samples` vector of `n_dofs` per-DOF matrices
all having `n_samples` rows, and a `Dmp` collaborator meeting its
shape contract, `performRollouts` resizes `cost_vars` to exactly
`n_samples` rows of `n_time_steps * (4 * n_dofs + 1)` columns; every
block assignment made for a sample lies within those column bounds,
and the column offset at which time step `tt` starts is exactly
`tt * (4 * n_dofs + 1)` — the per-time-step offset advances by
exactly `4 * n_dofs + 1`. -/
theorem performRollouts_shape_and_bounds
    (dmpRoll : List (List ℚ) → DmpRollout) (T : ℕ) (ts : List ℚ)
    (samples : List Mat) (n_samples : ℕ)
    (hne : samples ≠ [])
    (hrows : ∀ s ∈ samples, s.length = n_samples)
    (hvalid : ∀ mp : List (List ℚ), ValidRollout samples.length T (dmpRoll mp)) :
    ((performRollouts dmpRoll T ts samples).length = n_samples) ∧
    (∀ row ∈ performRollouts dmpRoll T ts samples,
      row.length = T * (4 * samples.length + 1)) ∧
    (∀ mp : List (List ℚ),
      ∀ w ∈ sampleRowWrites samples.length T ts (dmpRoll mp),
        w.off + w.width ≤ T * (4 * samples.length + 1)) ∧
    (∀ mp : List (List ℚ), ∀ j, j < T →
      ((sampleRowWrites samples.length T ts (dmpRoll mp)).getD (5 * j)
          default).off = j * (4 * samples.length + 1)) := by
  have hbound : ∀ mp : List (List ℚ),
      ∀ w ∈ sampleRowWrites samples.length T ts (dmpRoll mp),
        w.off + w.width ≤ T * (4 * samples.length + 1) := by
    intro mp w hw
    have h := (rowWrites_bounds samples.length ts (dmpRoll mp) T 0 0 w hw).2
    simpa using h
  have hvals : ∀ mp : List (List ℚ),
      ∀ w ∈ sampleRowWrites samples.length T ts (dmpRoll mp),
        w.vals.length = w.width := by
    intro mp w hw
    exact rowWrites_vals samples.length T ts (dmpRoll mp) (hvalid mp) T 0 0
      (by omega) w hw
  refine ⟨?_, ?_, hbound, ?_⟩
  · have hpos : 0 < samples.length := List.length_pos.mpr hne
    have h0 : samples.getD 0 default ∈ samples := by
      rw [List.getD_eq_getElem _ _ hpos]
      exact List.getElem_mem hpos
    have hlen0 : (samples.getD 0 default).length = n_samples := hrows _ h0
    simp only [performRollouts, List.length_map, List.length_range]
    exact hlen0
  · intro row hrow
    simp only [performRollouts, List.mem_map, List.mem_range] at hrow
    obtain ⟨k, _, hk⟩ := hrow
    have hlen := applyWrites_length
      (sampleRowWrites samples.length T ts
        (dmpRoll (samples.map (fun s => s.getD k []))))
      (List.replicate (T * (4 * samples.length + 1)) 0)
      (fun w hw => by
        have h1 := hvals _ w hw
        have h2 := hbound _ w hw
        rw [List.length_replicate]
        omega)
    rw [← hk, hlen, List.length_replicate]
  · intro mp j hj
    have h := rowWrites_getD_step_start samples.length ts (dmpRoll mp) T 0 0 j hj
    unfold sampleRowWrites
    rw [h]
    simp

/-- A concrete rollout for the `performRollouts` witness: two DOFs,
two time steps. -/
def rolloutW : DmpRollout :=
  ⟨[[1, 1], [2, 2]], [[3, 3], [4, 4]], [[5, 5], [6, 6]], [[7, 7], [8, 8]]⟩

/-- A concrete `Dmp` collaborator for the witness. -/
def dmpRollW : List (List ℚ) → DmpRollout := fun _ => rolloutW

/-- Concrete per-DOF sample matrices for the witness: two DOFs, one
sample of three model parameters each. -/
def samplesW : List Mat := [[[1, 2, 3]], [[4, 5, 6]]]

theorem performRollouts_shape_and_bounds_witness :
    (samplesW ≠ [] ∧ (∀ s ∈ samplesW, s.length = 1) ∧
     (∀ mp : List (List ℚ), ValidRollout samplesW.length 2 (dmpRollW mp))) ∧
    (performRollouts dmpRollW 2 [0, 1] samplesW).length = 1 ∧
    ((performRollouts dmpRollW 2 [0, 1] samplesW).getD 0 []).length =
      2 * (4 * samplesW.length + 1) ∧
    ((sampleRowWrites samplesW.length 2 [0, 1] (dmpRollW [])).getD (5 * 1)
        default).off = 1 * (4 * samplesW.length + 1) :=
  ⟨⟨by decide, by decide, fun _ => (by decide : ValidRollout samplesW.length 2 rolloutW)⟩,
   (performRollouts_shape_and_bounds dmpRollW 2 [0, 1] samplesW 1 (by decide)
      (by decide) (fun _ => (by decide : ValidRollout samplesW.length 2 rolloutW))).1,
   (performRollouts_shape_and_bounds dmpRollW 2 [0, 1] samplesW 1 (by decide)
      (by decide) (fun _ => (by decide : ValidRollout samplesW.length 2 rolloutW))).2.1 _ (by decide),
   (performRollouts_shape_and_bounds dmpRollW 2 [0, 1] samplesW 1 (by decide)
      (by decide) (fun _ => (by decide : ValidRollout samplesW.length 2 rolloutW))).2.2.2 [] 1 (by decide)⟩
